import Mathlib

/-!
Verification of core services of the MHFTSB trading bot backend:
admission gate (`hft_gate.py`), deduplicating event cache
(`liquidity_monitor.py`), endpoint health registry (`rpc_manager.py`),
position risk engine (`position_manager.py`) and the clone-and-inject
transaction builder (`solana_trader.py`).

Python floats that only ever hold times, prices, percentages and scores are
modelled as rationals (`ℚ`); monotone counters as `Nat`.  Stateful classes
become structures with explicit state-passing functions; the wall clock
(`time.time()` / `datetime.now()`) is passed in as an explicit argument.
-/

/- ================================================================
   Admission gate — src/backend/services/hft_gate.py
   ================================================================ -/

/-- State of `HftGateService`: `max_in_flight` is set at construction,
`_in_flight` starts at 0, `_dropped_count` and `_total_entered` at 0.
`_in_flight` is only ever incremented or decremented with a floor of 0,
so it is a `Nat`. -/
structure HftGateService where
  max_in_flight : Nat
  in_flight : Nat
  dropped_count : Nat
  total_entered : Nat
deriving Repr, DecidableEq

namespace HftGateService

/-- `HftGateService.__init__(max_in_flight)`. -/
def init (m : Nat) : HftGateService :=
  { max_in_flight := m, in_flight := 0, dropped_count := 0, total_entered := 0 }

/-- `try_enter`: under the lock, if `_in_flight >= max_in_flight` count a drop
and return `False`; otherwise increment `_in_flight` and `_total_entered`
and return `True`.  (The candidate id is only logged, so it is dropped.) -/
def try_enter (g : HftGateService) : HftGateService × Bool :=
  if g.in_flight ≥ g.max_in_flight then
    ({ g with dropped_count := g.dropped_count + 1 }, false)
  else
    ({ g with in_flight := g.in_flight + 1, total_entered := g.total_entered + 1 }, true)

/-- `exit`: under the lock, `_in_flight = max(0, _in_flight - 1)`;
`Nat` subtraction is exactly this floored decrement. -/
def exit (g : HftGateService) : HftGateService :=
  { g with in_flight := g.in_flight - 1 }

end HftGateService

/-- A call against the gate: one `try_enter` or one `exit`. -/
inductive GateOp
  | tryEnterOp
  | exitOp
deriving Repr, DecidableEq

/-- Run a sequence of gate calls from a state (the `Bool` results are
discarded; they are recovered by applying `try_enter` to any
intermediate state). -/
def runGate (g : HftGateService) : List GateOp → HftGateService
  | [] => g
  | GateOp.tryEnterOp :: ops => runGate (g.try_enter).1 ops
  | GateOp.exitOp :: ops => runGate g.exit ops

/-- One `try_enter` or `exit` keeps `in_flight ≤ max_in_flight` and
never changes `max_in_flight`. -/
lemma gate_step_bound (g : HftGateService) (hg : g.in_flight ≤ g.max_in_flight) :
    (g.try_enter).1.in_flight ≤ (g.try_enter).1.max_in_flight ∧
    (g.try_enter).1.max_in_flight = g.max_in_flight ∧
    g.exit.in_flight ≤ g.exit.max_in_flight ∧
    g.exit.max_in_flight = g.max_in_flight := by
  unfold HftGateService.try_enter HftGateService.exit
  by_cases h : g.in_flight ≥ g.max_in_flight
  · simp [h]
    omega
  · simp [h]
    omega

/-- Any state reached from a state satisfying the bound still satisfies it,
and `max_in_flight` is constant. -/
lemma runGate_bound (ops : List GateOp) (g : HftGateService)
    (hg : g.in_flight ≤ g.max_in_flight) :
    (runGate g ops).in_flight ≤ (runGate g ops).max_in_flight ∧
    (runGate g ops).max_in_flight = g.max_in_flight := by
  induction ops generalizing g with
  | nil => exact ⟨hg, rfl⟩
  | cons op ops ih =>
    cases op with
    | tryEnterOp =>
      obtain ⟨h1, h2, _, _⟩ := gate_step_bound g hg
      obtain ⟨h3, h4⟩ := ih (g.try_enter).1 h1
      exact ⟨h3, h4.trans h2⟩
    | exitOp =>
      obtain ⟨_, _, h1, h2⟩ := gate_step_bound g hg
      obtain ⟨h3, h4⟩ := ih g.exit h1
      exact ⟨h3, h4.trans h2⟩

/-- C1. Admission gate: for every sequence of `try_enter`/`exit` calls
starting from a fresh gate, `in_flight` stays in `[0, max_in_flight]`;
a `try_enter` at the ceiling returns `false` and increments the drop
counter by exactly one (leaving `in_flight` unchanged); and after an
`exit`, a subsequent `try_enter` returns `true` again. -/
theorem hft_gate_admission (m : Nat) (ops : List GateOp) (hm : 0 < m) :
    let s := runGate (HftGateService.init m) ops
    s.in_flight ≤ m
    ∧ (s.in_flight = m →
        (s.try_enter).2 = false
        ∧ (s.try_enter).1.dropped_count = s.dropped_count + 1
        ∧ (s.try_enter).1.in_flight = s.in_flight)
    ∧ (s.exit.try_enter).2 = true := by
  intro s
  have hs : s = runGate (HftGateService.init m) ops := rfl
  obtain ⟨hb, hmax⟩ := runGate_bound ops (HftGateService.init m) (by simp [HftGateService.init])
  rw [← hs] at hb hmax
  have hmax' : s.max_in_flight = m := by simpa [HftGateService.init] using hmax
  refine ⟨hmax' ▸ hb, ?_, ?_⟩
  · intro hfull
    have hge : s.in_flight ≥ s.max_in_flight := by omega
    unfold HftGateService.try_enter
    simp [hge]
  · have hlt : s.exit.in_flight < s.exit.max_in_flight := by
      unfold HftGateService.exit
      simp
      omega
    unfold HftGateService.try_enter
    simp [Nat.not_le.mpr hlt]

/-- Witness for C1: the spec's concrete scenario with `max_in_flight = 3`.
After three successful `try_enter`, a fourth `try_enter` (the fourth op)
leaves the gate full; at the full state `try_enter` fails with drop count
incremented, and after one `exit` a further `try_enter` succeeds. -/
theorem hft_gate_admission_witness :
    let s := runGate (HftGateService.init 3)
      [GateOp.tryEnterOp, GateOp.tryEnterOp, GateOp.tryEnterOp]
    s.in_flight ≤ 3
    ∧ (s.in_flight = 3 →
        (s.try_enter).2 = false
        ∧ (s.try_enter).1.dropped_count = s.dropped_count + 1
        ∧ (s.try_enter).1.in_flight = s.in_flight)
    ∧ (s.exit.try_enter).2 = true :=
  hft_gate_admission 3 [GateOp.tryEnterOp, GateOp.tryEnterOp, GateOp.tryEnterOp]
    (by decide)

/- ================================================================
   Deduplicating event cache — src/backend/services/liquidity_monitor.py
   ================================================================ -/

/-- State of `LRUDedup`: the `OrderedDict` is modelled as an
insertion-ordered association list (front = oldest entry), mapping a
signature to its insertion time. -/
structure LRUDedup where
  cache : List (String × ℚ)
  max_size : Nat
  ttl : ℚ
deriving Repr, DecidableEq

namespace LRUDedup

/-- `LRUDedup.__init__(max_size, ttl)`. -/
def init (maxSize : Nat) (ttl : ℚ) : LRUDedup :=
  { cache := [], max_size := maxSize, ttl := ttl }

/-- `key in self._cache`. -/
def mem (d : LRUDedup) (key : String) : Bool :=
  d.cache.any (fun kv => kv.1 == key)

/-- The `while len(self._cache) > self._max_size: self._cache.popitem(last=False)`
loop: pop the oldest (front) entry until the size bound holds. -/
def evictWhileOver (maxSize : Nat) : List (String × ℚ) → List (String × ℚ)
  | [] => []
  | kv :: rest =>
    if rest.length + 1 > maxSize then evictWhileOver maxSize rest else kv :: rest

/-- `add(key)`: `False` (cache untouched) when the key is already present;
otherwise append `(key, now)` at the newest end, run the capacity-eviction
loop and return `True`.  `now` (Python `time.time()`) is an argument. -/
def add (d : LRUDedup) (key : String) (now : ℚ) : LRUDedup × Bool :=
  if d.mem key then (d, false)
  else ({ d with cache := evictWhileOver d.max_size (d.cache ++ [(key, now)]) }, true)

/-- `cleanup()`: delete every entry with `now - v > ttl`. -/
def cleanup (d : LRUDedup) (now : ℚ) : LRUDedup :=
  { d with cache := d.cache.filter (fun kv => ¬ (now - kv.2 > d.ttl)) }

end LRUDedup

/-- A call against the cache: one `add` or one `cleanup`, with the clock
value at the moment of the call. -/
inductive DedupOp
  | addOp (key : String) (now : ℚ)
  | cleanupOp (now : ℚ)
deriving Repr

/-- Run a sequence of cache calls (the `Bool` results of `add` are
discarded; they are recovered by applying `add` to any intermediate
state). -/
def runDedup (d : LRUDedup) : List DedupOp → LRUDedup
  | [] => d
  | DedupOp.addOp k t :: ops => runDedup (d.add k t).1 ops
  | DedupOp.cleanupOp t :: ops => runDedup (d.cleanup t) ops

/-- The eviction loop always brings the list within the size bound. -/
lemma evictWhileOver_length (maxSize : Nat) (l : List (String × ℚ)) :
    (LRUDedup.evictWhileOver maxSize l).length ≤ maxSize := by
  induction l with
  | nil => simp [LRUDedup.evictWhileOver]
  | cons kv rest ih =>
    unfold LRUDedup.evictWhileOver
    by_cases h : rest.length + 1 > maxSize
    · simpa [h] using ih
    · simp [h]
      omega

/-- A single `add` or `cleanup` keeps the cache within `max_size` and
keeps `max_size` itself unchanged. -/
lemma dedup_step_bound (d : LRUDedup) (k : String) (t : ℚ)
    (hd : d.cache.length ≤ d.max_size) :
    (d.add k t).1.cache.length ≤ (d.add k t).1.max_size ∧
    (d.add k t).1.max_size = d.max_size ∧
    (d.cleanup t).cache.length ≤ (d.cleanup t).max_size ∧
    (d.cleanup t).max_size = d.max_size := by
  refine ⟨?_, ?_, ?_, rfl⟩
  · unfold LRUDedup.add
    by_cases h : d.mem k
    · simpa [h] using hd
    · simpa [h] using evictWhileOver_length d.max_size (d.cache ++ [(k, t)])
  · unfold LRUDedup.add
    by_cases h : d.mem k <;> simp [h]
  · unfold LRUDedup.cleanup
    exact le_trans (List.length_filter_le _ _) hd

/-- Any state reached from a state within the size bound stays within it,
with `max_size` constant. -/
lemma runDedup_bound (ops : List DedupOp) (d : LRUDedup)
    (hd : d.cache.length ≤ d.max_size) :
    (runDedup d ops).cache.length ≤ (runDedup d ops).max_size ∧
    (runDedup d ops).max_size = d.max_size := by
  induction ops generalizing d with
  | nil => exact ⟨hd, rfl⟩
  | cons op ops ih =>
    cases op with
    | addOp k t =>
      obtain ⟨h1, h2, _, _⟩ := dedup_step_bound d k t hd
      obtain ⟨h3, h4⟩ := ih (d.add k t).1 h1
      exact ⟨h3, h4.trans h2⟩
    | cleanupOp t =>
      obtain ⟨_, _, h1, h2⟩ := dedup_step_bound d "" t hd
      obtain ⟨h3, h4⟩ := ih (d.cleanup t) h1
      exact ⟨h3, h4.trans h2⟩

/-- C2. Deduplicating cache: from the monitor's cache
(`LRUDedup(max_size=50000, ttl=60)`), after any sequence of `add`/`cleanup`
calls, `add s` returns `true` exactly when `s` is absent (first sighting or
evicted since), returns `false` and leaves the state untouched while `s` is
still present, and the cache size never exceeds 50000 — in particular
immediately after the insertion performed by a successful `add`. -/
theorem lru_dedup_correct (ops : List DedupOp) (key : String) (now : ℚ) :
    let d := runDedup (LRUDedup.init 50000 60) ops
    d.cache.length ≤ 50000
    ∧ (d.mem key = false → (d.add key now).2 = true)
    ∧ (d.mem key = true → (d.add key now).2 = false ∧ (d.add key now).1 = d)
    ∧ (d.add key now).1.cache.length ≤ 50000 := by
  intro d
  have hd : d = runDedup (LRUDedup.init 50000 60) ops := rfl
  obtain ⟨hb, hmax⟩ := runDedup_bound ops (LRUDedup.init 50000 60)
    (by simp [LRUDedup.init])
  rw [← hd] at hb hmax
  have hmax' : d.max_size = 50000 := hmax
  refine ⟨hmax' ▸ hb, ?_, ?_, ?_⟩
  · intro habs
    unfold LRUDedup.add
    simp [habs]
  · intro hpres
    unfold LRUDedup.add
    simp [hpres]
  · obtain ⟨h1, h2, _, _⟩ := dedup_step_bound d key now hb
    rw [hmax'] at h2
    exact h2 ▸ h1

/-- Witness for C2: concrete run — add "sig1" at time 0, cleanup at
time 100 (which evicts it, 100 − 0 > 60); afterwards "sig1" is absent so
`add` accepts it again, and the size bound holds. -/
theorem lru_dedup_correct_witness :
    let d := runDedup (LRUDedup.init 50000 60)
      [DedupOp.addOp "sig1" 0, DedupOp.cleanupOp 100]
    d.cache.length ≤ 50000
    ∧ (d.mem "sig1" = false → (d.add "sig1" 101).2 = true)
    ∧ (d.mem "sig1" = true → (d.add "sig1" 101).2 = false ∧ (d.add "sig1" 101).1 = d)
    ∧ (d.add "sig1" 101).1.cache.length ≤ 50000 :=
  lru_dedup_correct [DedupOp.addOp "sig1" 0, DedupOp.cleanupOp 100] "sig1" 101

/- ================================================================
   Endpoint health registry — src/backend/services/rpc_manager.py
   ================================================================ -/

/-- `RpcEndpoint` with the fields the selection/penalty logic reads.
`last_check` (only written, never read by the modelled code paths) is
kept for fidelity. -/
structure RpcEndpoint where
  url : String
  pool : String
  role : String
  latency_ms : ℚ
  slot_lag : ℚ
  recent_429s : Nat
  cooldown_until : ℚ
  health_score : ℚ
  last_check : ℚ
deriving Repr, DecidableEq

namespace RpcEndpoint

/-- `RpcEndpoint.__init__(url, wss, pool, role)` (the `wss` url is never
read by the modelled logic and is omitted). -/
def init (url pool role : String) : RpcEndpoint :=
  { url := url, pool := pool, role := role, latency_ms := 0, slot_lag := 0,
    recent_429s := 0, cooldown_until := 0, health_score := 100, last_check := 0 }

/-- `is_available()`: `time.time() > cooldown_until`. -/
def is_available (e : RpcEndpoint) (now : ℚ) : Bool :=
  now > e.cooldown_until

/-- `mark_429()`: bump the 429 counter, 4-second cooldown, health floored
penalty of 20. -/
def mark_429 (e : RpcEndpoint) (now : ℚ) : RpcEndpoint :=
  { e with recent_429s := e.recent_429s + 1,
           cooldown_until := now + 4,
           health_score := max 0 (e.health_score - 20) }

/-- `update_health(latency_ms, slot_lag)`: recompute the score from the
probe. -/
def update_health (e : RpcEndpoint) (latencyMs slotLag now : ℚ) : RpcEndpoint :=
  { e with latency_ms := latencyMs, slot_lag := slotLag,
           health_score := max 0 (100 - latencyMs / 10 - slotLag * 5 - (e.recent_429s : ℚ) * 10),
           last_check := now }

end RpcEndpoint

/-- One entry of the `endpoints: List[Dict]` argument of
`RpcManagerService.configure` (`url`, `pool` with default `"fast"`,
`role` with default `"general"`; the optional `wss` is dropped as above). -/
structure EndpointDescriptor where
  url : String
  pool : String
  role : String
deriving Repr, DecidableEq

/-- `RpcManagerService` pool state. -/
structure RpcManagerService where
  fast_pool : List RpcEndpoint
  cold_pool : List RpcEndpoint
  jito_endpoints : List RpcEndpoint
deriving Repr, DecidableEq

namespace RpcManagerService

/-- `configure(endpoints)`: clear all pools, then route each descriptor to
the jito, cold or (default) fast pool. -/
def configure (descs : List EndpointDescriptor) : RpcManagerService :=
  descs.foldl
    (fun m d =>
      let ep := RpcEndpoint.init d.url d.pool d.role
      if ep.pool == "jito" then { m with jito_endpoints := m.jito_endpoints ++ [ep] }
      else if ep.pool == "cold" then { m with cold_pool := m.cold_pool ++ [ep] }
      else { m with fast_pool := m.fast_pool ++ [ep] })
    { fast_pool := [], cold_pool := [], jito_endpoints := [] }

/-- `sorted(available, key=lambda e: -e.health_score)[0]` for a nonempty
list: Python's sort is stable, so the head of the descending sort is the
first element attaining the maximal `health_score`. -/
def bestByHealth : List RpcEndpoint → Option RpcEndpoint
  | [] => none
  | e :: es =>
    some (es.foldl (fun b x => if x.health_score > b.health_score then x else b) e)

/-- `get_tx_fetch_connection()`: available fast endpoints, falling back to
available cold endpoints, falling back to the first configured fast/cold
endpoint (or `None` when both pools are empty). -/
def get_tx_fetch_connection (m : RpcManagerService) (now : ℚ) : Option RpcEndpoint :=
  let avFast := m.fast_pool.filter (fun e => e.is_available now)
  let av := if avFast.isEmpty then m.cold_pool.filter (fun e => e.is_available now) else avFast
  if av.isEmpty then (m.fast_pool ++ m.cold_pool).head?
  else bestByHealth av

/-- The body of `mark_auth_failure` on one pool list: zero the health and
set a 300-second cooldown on the first endpoint whose url matches, then
`break` (the Bool records whether a match was found). -/
def markAuthList (url : String) (now : ℚ) : List RpcEndpoint → List RpcEndpoint × Bool
  | [] => ([], false)
  | e :: es =>
    if e.url == url then
      ({ e with health_score := 0, cooldown_until := now + 300 } :: es, true)
    else
      let r := markAuthList url now es
      (e :: r.1, r.2)

/-- `mark_auth_failure(url)`: iterate `fast_pool + cold_pool`, penalize the
first url match only. -/
def mark_auth_failure (m : RpcManagerService) (url : String) (now : ℚ) : RpcManagerService :=
  let rf := markAuthList url now m.fast_pool
  if rf.2 then { m with fast_pool := rf.1 }
  else { m with cold_pool := (markAuthList url now m.cold_pool).1 }

end RpcManagerService

/-- `bestByHealth` of a nonempty list is a member of the list. -/
lemma bestByHealth_mem (e : RpcEndpoint) (es : List RpcEndpoint) (r : RpcEndpoint)
    (h : RpcManagerService.bestByHealth (e :: es) = some r) : r ∈ e :: es := by
  have hr : r = es.foldl (fun b x => if x.health_score > b.health_score then x else b) e := by
    simpa [RpcManagerService.bestByHealth] using h.symm
  subst hr
  clear h
  induction es generalizing e with
  | nil => simp
  | cons x xs ih =>
    simp only [List.foldl_cons]
    by_cases hx : x.health_score > e.health_score
    · simp only [if_pos hx]
      have := ih x
      simp only [List.mem_cons] at this ⊢
      tauto
    · simp only [if_neg hx]
      have := ih e
      simp only [List.mem_cons] at this ⊢
      tauto

/-- `bestByHealth` of a nonempty list attains the maximal health score. -/
lemma bestByHealth_maximal (e : RpcEndpoint) (es : List RpcEndpoint) (r : RpcEndpoint)
    (h : RpcManagerService.bestByHealth (e :: es) = some r) :
    ∀ x ∈ e :: es, x.health_score ≤ r.health_score := by
  have hr : r = es.foldl (fun b x => if x.health_score > b.health_score then x else b) e := by
    simpa [RpcManagerService.bestByHealth] using h.symm
  subst hr
  clear h
  induction es generalizing e with
  | nil => simp
  | cons x xs ih =>
    intro y hy
    simp only [List.mem_cons] at hy
    simp only [List.foldl_cons]
    by_cases hx : x.health_score > e.health_score
    · simp only [if_pos hx]
      rcases hy with rfl | rfl | hy
      · exact le_of_lt (lt_of_lt_of_le hx (ih x x (by simp)))
      · exact ih y y (by simp)
      · exact ih x y (by simp [hy])
    · simp only [if_neg hx]
      rcases hy with rfl | rfl | hy
      · exact ih y y (by simp)
      · exact le_trans (not_lt.mp hx) (ih e e (by simp))
      · exact ih e y (by simp [hy])

/-- The pool-routing loop of `configure`: the combined fast/cold size grows
by exactly the number of non-jito descriptors. -/
lemma configure_foldl_count (descs : List EndpointDescriptor) (m : RpcManagerService) :
    let step := fun (m : RpcManagerService) (d : EndpointDescriptor) =>
      let ep := RpcEndpoint.init d.url d.pool d.role
      if ep.pool == "jito" then { m with jito_endpoints := m.jito_endpoints ++ [ep] }
      else if ep.pool == "cold" then { m with cold_pool := m.cold_pool ++ [ep] }
      else { m with fast_pool := m.fast_pool ++ [ep] }
    (descs.foldl step m).fast_pool.length + (descs.foldl step m).cold_pool.length
      = m.fast_pool.length + m.cold_pool.length
        + descs.countP (fun d => decide (d.pool ≠ "jito")) := by
  intro step
  induction descs generalizing m with
  | nil => simp
  | cons d ds ih =>
    simp only [List.foldl_cons, List.countP_cons]
    have hstep : step m d =
        (if d.pool == "jito" then { m with jito_endpoints := m.jito_endpoints ++ [RpcEndpoint.init d.url d.pool d.role] }
         else if d.pool == "cold" then { m with cold_pool := m.cold_pool ++ [RpcEndpoint.init d.url d.pool d.role] }
         else { m with fast_pool := m.fast_pool ++ [RpcEndpoint.init d.url d.pool d.role] }) := rfl
    by_cases hj : d.pool = "jito"
    · rw [hstep]
      simp only [hj, beq_self_eq_true, if_true]
      rw [ih]
      simp [hj]
    · by_cases hc : d.pool = "cold"
      · rw [hstep]
        simp only [hc]
        norm_num
        rw [ih]
        simp [hc]
        omega
      · rw [hstep]
        have hj' : (d.pool == "jito") = false := beq_eq_false_iff_ne.mpr hj
        have hc' : (d.pool == "cold") = false := beq_eq_false_iff_ne.mpr hc
        simp only [hj', hc', if_false]
        rw [ih]
        simp [hj]
        omega

/-- When some fast/cold endpoint is available, `get_tx_fetch_connection`
returns an available endpoint. -/
lemma get_tx_fetch_available (m : RpcManagerService) (now : ℚ) (r : RpcEndpoint)
    (hav : (m.fast_pool ++ m.cold_pool).any (fun e => e.is_available now) = true)
    (hr : m.get_tx_fetch_connection now = some r) :
    r.is_available now = true := by
  unfold RpcManagerService.get_tx_fetch_connection at hr
  rw [List.any_append] at hav
  rcases Bool.or_eq_true_iff.mp hav with hf | hc
  · obtain ⟨e, he, hea⟩ := List.any_eq_true.mp hf
    have hmem : e ∈ m.fast_pool.filter (fun e => e.is_available now) :=
      List.mem_filter.mpr ⟨he, hea⟩
    rcases hfa : m.fast_pool.filter (fun e => e.is_available now) with _ | ⟨a, as⟩
    · rw [hfa] at hmem; simp at hmem
    · rw [hfa] at hr
      simp only [List.isEmpty_cons, if_false, Bool.false_eq_true] at hr
      have hrm := bestByHealth_mem a as r hr
      rw [← hfa] at hrm
      exact (List.mem_filter.mp hrm).2
  · obtain ⟨e, he, hea⟩ := List.any_eq_true.mp hc
    rcases hfa : m.fast_pool.filter (fun e => e.is_available now) with _ | ⟨a, as⟩
    · rw [hfa] at hr
      simp only [List.isEmpty_nil, if_true] at hr
      have hmem : e ∈ m.cold_pool.filter (fun e => e.is_available now) :=
        List.mem_filter.mpr ⟨he, hea⟩
      rcases hca : m.cold_pool.filter (fun e => e.is_available now) with _ | ⟨b, bs⟩
      · rw [hca] at hmem; simp at hmem
      · rw [hca] at hr
        simp only [List.isEmpty_cons, if_false, Bool.false_eq_true] at hr
        have hrm := bestByHealth_mem b bs r hr
        rw [← hca] at hrm
        exact (List.mem_filter.mp hrm).2
    · rw [hfa] at hr
      simp only [List.isEmpty_cons, if_false, Bool.false_eq_true] at hr
      have hrm := bestByHealth_mem a as r hr
      rw [← hfa] at hrm
      exact (List.mem_filter.mp hrm).2

/-- The found flag of the `mark_auth_failure` loop body is exactly "some
endpoint in the list has the url". -/
lemma markAuthList_found (url : String) (now : ℚ) (l : List RpcEndpoint) :
    (RpcManagerService.markAuthList url now l).2 = l.any (fun e => e.url == url) := by
  induction l with
  | nil => simp [RpcManagerService.markAuthList]
  | cons e es ih =>
    unfold RpcManagerService.markAuthList
    by_cases he : e.url == url
    · simp [he]
    · simp only [he, if_false, List.any_cons, Bool.false_eq_true]
      simpa [he] using ih

/-- If the url occurs in the list, after the `mark_auth_failure` loop body
some endpoint with that url has health score 0 and a cooldown ending 300
seconds after the call. -/
lemma markAuthList_marks (url : String) (now : ℚ) (l : List RpcEndpoint)
    (h : l.any (fun e => e.url == url) = true) :
    (RpcManagerService.markAuthList url now l).1.any
      (fun e => e.url == url && decide (e.health_score = 0)
        && decide (e.cooldown_until = now + 300)) = true := by
  induction l with
  | nil => simp at h
  | cons e es ih =>
    unfold RpcManagerService.markAuthList
    by_cases he : e.url == url
    · simp [he]
    · simp only [he, if_false, Bool.false_eq_true, List.any_cons, Bool.false_and,
        Bool.false_or]
      simp only [List.any_cons, he, Bool.false_or, Bool.false_eq_true] at h
      simpa [he] using ih h

/-- `mark_auth_failure` leaves the combined fast/cold pool with a marked
endpoint whenever the url is configured there. -/
lemma mark_auth_failure_marks (m : RpcManagerService) (url : String) (t : ℚ)
    (h : (m.fast_pool ++ m.cold_pool).any (fun e => e.url == url) = true) :
    ((m.mark_auth_failure url t).fast_pool ++ (m.mark_auth_failure url t).cold_pool).any
      (fun e => e.url == url && decide (e.health_score = 0)
        && decide (e.cooldown_until = t + 300)) = true := by
  unfold RpcManagerService.mark_auth_failure
  rw [List.any_append] at h
  by_cases hf : (RpcManagerService.markAuthList url t m.fast_pool).2 = true
  · simp only [hf, if_true, List.any_append]
    have : m.fast_pool.any (fun e => e.url == url) = true := by
      rw [← markAuthList_found url t m.fast_pool]; exact hf
    rw [markAuthList_marks url t m.fast_pool this]
    simp
  · simp only [hf, if_false, List.any_append, Bool.false_eq_true]
    have hff : m.fast_pool.any (fun e => e.url == url) = false := by
      rw [← markAuthList_found url t m.fast_pool]
      exact Bool.eq_false_iff.mpr hf
    rw [hff] at h
    simp only [Bool.false_or] at h
    rw [markAuthList_marks url t m.cold_pool h]
    simp

/-- C6 (amended). Auth failure exclusion: after `mark_auth_failure(url)` at
time `t`, (i) if the url is configured in the fast or cold pool, some
endpoint with that url now has health score 0 and `cooldown_until = t + 300`;
(ii) at any instant `now ≤ t + 300` at which at least one fast/cold endpoint
is available, `get_tx_fetch_connection` returns an available endpoint, which
is therefore not the marked one (the marked endpoint, having
`cooldown_until = t + 300`, is unavailable until after `t + 300`).
Without any available endpoint, the absolute fallback may still return the
marked endpoint (see the counterexample). -/
theorem mark_auth_failure_exclusion (m : RpcManagerService) (url : String) (t now : ℚ)
    (hnow : now ≤ t + 300) :
    ((m.fast_pool ++ m.cold_pool).any (fun e => e.url == url) = true →
      ((m.mark_auth_failure url t).fast_pool ++ (m.mark_auth_failure url t).cold_pool).any
        (fun e => e.url == url && decide (e.health_score = 0)
          && decide (e.cooldown_until = t + 300)) = true)
    ∧ (∀ r : RpcEndpoint,
        ((m.mark_auth_failure url t).fast_pool ++ (m.mark_auth_failure url t).cold_pool).any
          (fun e => e.is_available now) = true →
        (m.mark_auth_failure url t).get_tx_fetch_connection now = some r →
        r.is_available now = true ∧ r.cooldown_until ≠ t + 300) := by
  constructor
  · exact fun h => mark_auth_failure_marks m url t h
  · intro r hav hr
    have hravail := get_tx_fetch_available (m.mark_auth_failure url t) now r hav hr
    refine ⟨hravail, ?_⟩
    intro hcd
    have : now > r.cooldown_until := by
      simpa [RpcEndpoint.is_available] using hravail
    rw [hcd] at this
    linarith

/-- Witness for C6: two fast endpoints "u1", "u2"; after
`mark_auth_failure "u1"` at time 0, queried at time 1 (within the 300s
window, with "u2" available). -/
theorem mark_auth_failure_exclusion_witness :
    let m := RpcManagerService.configure
      [⟨"u1", "fast", "helius"⟩, ⟨"u2", "fast", "helius"⟩]
    ((1 : ℚ) ≤ 0 + 300)
    ∧ (((m.fast_pool ++ m.cold_pool).any (fun e => e.url == "u1") = true →
        ((m.mark_auth_failure "u1" 0).fast_pool ++ (m.mark_auth_failure "u1" 0).cold_pool).any
          (fun e => e.url == "u1" && decide (e.health_score = 0)
            && decide (e.cooldown_until = (0 : ℚ) + 300)) = true)
      ∧ (∀ r : RpcEndpoint,
          ((m.mark_auth_failure "u1" 0).fast_pool ++ (m.mark_auth_failure "u1" 0).cold_pool).any
            (fun e => e.is_available 1) = true →
          (m.mark_auth_failure "u1" 0).get_tx_fetch_connection 1 = some r →
          r.is_available 1 = true ∧ r.cooldown_until ≠ (0 : ℚ) + 300)) :=
  ⟨by norm_num,
   mark_auth_failure_exclusion
     (RpcManagerService.configure [⟨"u1", "fast", "helius"⟩, ⟨"u2", "fast", "helius"⟩])
     "u1" 0 1 (by norm_num)⟩

/-- Counterexample for C6 as stated: with a single configured endpoint,
`mark_auth_failure` zeroes its health and puts it in a 300-second cooldown,
yet `best_fetch_endpoint` still returns that very endpoint one second later
(the unconditional fallback `all_eps[0]`), inside the 300-second window. -/
theorem mark_auth_failure_counterexample :
    let m := RpcManagerService.configure [⟨"u1", "fast", "helius"⟩]
    ∃ r, (m.mark_auth_failure "u1" 0).get_tx_fetch_connection 1 = some r
      ∧ r.url = "u1" ∧ r.health_score = 0 ∧ r.cooldown_until = 300
      ∧ ((1 : ℚ) ≤ 0 + 300) := by
  refine ⟨{ url := "u1", pool := "fast", role := "helius", latency_ms := 0,
            slot_lag := 0, recent_429s := 0, cooldown_until := 300,
            health_score := 0, last_check := 0 }, ?_, rfl, rfl, rfl, by norm_num⟩
  have h1 : ¬ ((1 : ℚ) > 300) := by norm_num
  simp [RpcManagerService.configure, RpcManagerService.mark_auth_failure,
    RpcManagerService.markAuthList, RpcManagerService.get_tx_fetch_connection,
    RpcEndpoint.init, RpcEndpoint.is_available, h1]

/-- C5 (amended). Endpoint selection totality: after `configure(descs)`,
whenever at least one descriptor targets the fast or cold pool (i.e. is not
a `"jito"` bundle endpoint), `get_tx_fetch_connection` returns some
endpoint; moreover it returns a highest-scoring available fast-pool
endpoint when one exists, else a highest-scoring available cold-pool
endpoint, else the first configured fast/cold endpoint.  (A configuration
consisting only of jito-pool endpoints yields `none`: see the
counterexample.) -/
theorem best_fetch_endpoint_total (descs : List EndpointDescriptor) (now : ℚ)
    (h : ∃ d ∈ descs, d.pool ≠ "jito") :
    let m := RpcManagerService.configure descs
    let avFast := m.fast_pool.filter (fun e => e.is_available now)
    let avCold := m.cold_pool.filter (fun e => e.is_available now)
    (∃ r, m.get_tx_fetch_connection now = some r)
    ∧ (∀ r, avFast ≠ [] → m.get_tx_fetch_connection now = some r →
        r ∈ avFast ∧ ∀ x ∈ avFast, x.health_score ≤ r.health_score)
    ∧ (∀ r, avFast = [] → avCold ≠ [] → m.get_tx_fetch_connection now = some r →
        r ∈ avCold ∧ ∀ x ∈ avCold, x.health_score ≤ r.health_score)
    ∧ (avFast = [] → avCold = [] →
        m.get_tx_fetch_connection now = (m.fast_pool ++ m.cold_pool).head?) := by
  intro m avFast avCold
  have hma : m = RpcManagerService.configure descs := rfl
  have hfa : avFast = m.fast_pool.filter (fun e => e.is_available now) := rfl
  have hca : avCold = m.cold_pool.filter (fun e => e.is_available now) := rfl
  have hcount : m.fast_pool.length + m.cold_pool.length
      = descs.countP (fun d => decide (d.pool ≠ "jito")) := by
    rw [hma]
    unfold RpcManagerService.configure
    simpa using configure_foldl_count descs
      { fast_pool := [], cold_pool := [], jito_endpoints := [] }
  have hpos : 0 < descs.countP (fun d => decide (d.pool ≠ "jito")) := by
    obtain ⟨d, hd, hdp⟩ := h
    exact List.countP_pos_iff.mpr ⟨d, hd, by simpa using hdp⟩
  have hne : m.fast_pool ++ m.cold_pool ≠ [] := by
    intro hnil
    have := List.append_eq_nil.mp hnil
    rw [this.1, this.2] at hcount
    simp only [List.length_nil] at hcount
    omega
  have hgoal : ∀ r, avFast ≠ [] → m.get_tx_fetch_connection now = some r →
      r ∈ avFast ∧ ∀ x ∈ avFast, x.health_score ≤ r.health_score := by
    intro r hfne hr
    unfold RpcManagerService.get_tx_fetch_connection at hr
    rw [← hfa] at hr
    rcases havf : avFast with _ | ⟨a, as⟩
    · exact absurd havf hfne
    · rw [havf] at hr
      simp only [List.isEmpty_cons, Bool.false_eq_true, if_false] at hr
      exact ⟨havf ▸ bestByHealth_mem a as r hr, havf ▸ bestByHealth_maximal a as r hr⟩
  refine ⟨?_, hgoal, ?_, ?_⟩
  · rcases havf : avFast with _ | ⟨a, as⟩
    · rcases havc : avCold with _ | ⟨b, bs⟩
      · rcases hl : m.fast_pool ++ m.cold_pool with _ | ⟨c, cs⟩
        · exact absurd hl hne
        · refine ⟨c, ?_⟩
          unfold RpcManagerService.get_tx_fetch_connection
          rw [← hfa, havf, ← hca]
          simp only [List.isEmpty_nil, if_true]
          rw [havc]
          simp [hl]
      · refine ⟨(RpcManagerService.bestByHealth (b :: bs)).getD b, ?_⟩
        unfold RpcManagerService.get_tx_fetch_connection
        rw [← hfa, havf]
        simp only [List.isEmpty_nil, if_true]
        rw [← hca, havc]
        simp [RpcManagerService.bestByHealth]
    · refine ⟨(RpcManagerService.bestByHealth (a :: as)).getD a, ?_⟩
      unfold RpcManagerService.get_tx_fetch_connection
      rw [← hfa, havf]
      simp [RpcManagerService.bestByHealth]
  · intro r hfe hcne hr
    unfold RpcManagerService.get_tx_fetch_connection at hr
    rw [← hfa, hfe] at hr
    simp only [List.isEmpty_nil, if_true] at hr
    rw [← hca] at hr
    rcases havc : avCold with _ | ⟨b, bs⟩
    · exact absurd havc hcne
    · rw [havc] at hr
      simp only [List.isEmpty_cons, Bool.false_eq_true, if_false] at hr
      exact ⟨havc ▸ bestByHealth_mem b bs r hr, havc ▸ bestByHealth_maximal b bs r hr⟩
  · intro hfe hce
    unfold RpcManagerService.get_tx_fetch_connection
    rw [← hfa, hfe]
    simp only [List.isEmpty_nil, if_true]
    rw [← hca, hce]
    simp

/-- Witness for C5: one fast endpoint configured, queried at time 1 (the
fresh endpoint has `cooldown_until = 0 < 1`, so it is available). -/
theorem best_fetch_endpoint_total_witness :
    let m := RpcManagerService.configure [⟨"u1", "fast", "helius"⟩]
    let avFast := m.fast_pool.filter (fun e => e.is_available 1)
    let avCold := m.cold_pool.filter (fun e => e.is_available 1)
    (∃ r, m.get_tx_fetch_connection 1 = some r)
    ∧ (∀ r, avFast ≠ [] → m.get_tx_fetch_connection 1 = some r →
        r ∈ avFast ∧ ∀ x ∈ avFast, x.health_score ≤ r.health_score)
    ∧ (∀ r, avFast = [] → avCold ≠ [] → m.get_tx_fetch_connection 1 = some r →
        r ∈ avCold ∧ ∀ x ∈ avCold, x.health_score ≤ r.health_score)
    ∧ (avFast = [] → avCold = [] →
        m.get_tx_fetch_connection 1 = (m.fast_pool ++ m.cold_pool).head?) :=
  best_fetch_endpoint_total [⟨"u1", "fast", "helius"⟩] 1
    ⟨⟨"u1", "fast", "helius"⟩, by simp, by simp⟩

/-- Counterexample for C5 as stated: a configuration whose only endpoint
sits in the jito (bundle) pool is "at least one endpoint configured (in any
pool)", yet `get_tx_fetch_connection` returns `none`. -/
theorem best_fetch_endpoint_counterexample :
    let m := RpcManagerService.configure [⟨"j1", "jito", "jito"⟩]
    m.jito_endpoints.length = 1 ∧ m.get_tx_fetch_connection 0 = none := by
  constructor
  · rfl
  · rfl

/-- C9 (amended). Rate-limit penalty: `mark_429` puts the endpoint in a
4-second cooldown, bumps the 429 counter, and strictly decreases the
health score whenever it is positive (the new score is
`max 0 (health − 20)`, so a score already at 0 stays 0: see the
counterexample). -/
theorem mark_429_penalty (e : RpcEndpoint) (now : ℚ) (h : 0 < e.health_score) :
    (e.mark_429 now).health_score < e.health_score
    ∧ (e.mark_429 now).cooldown_until = now + 4
    ∧ (e.mark_429 now).recent_429s = e.recent_429s + 1 := by
  refine ⟨?_, rfl, rfl⟩
  unfold RpcEndpoint.mark_429
  simp only
  exact max_lt h (by linarith)

/-- Witness for C9: a fresh endpoint (health 100 > 0) rate-limited at
time 0. -/
theorem mark_429_penalty_witness :
    (0 : ℚ) < (RpcEndpoint.init "u1" "fast" "helius").health_score
    ∧ (((RpcEndpoint.init "u1" "fast" "helius").mark_429 0).health_score
        < (RpcEndpoint.init "u1" "fast" "helius").health_score
      ∧ ((RpcEndpoint.init "u1" "fast" "helius").mark_429 0).cooldown_until = 0 + 4
      ∧ ((RpcEndpoint.init "u1" "fast" "helius").mark_429 0).recent_429s
          = (RpcEndpoint.init "u1" "fast" "helius").recent_429s + 1) :=
  ⟨by norm_num [RpcEndpoint.init],
   mark_429_penalty (RpcEndpoint.init "u1" "fast" "helius") 0
     (by norm_num [RpcEndpoint.init])⟩

/-- Counterexample for C9 as stated: five rate-limit penalties drive a fresh
endpoint's health to exactly 0 (100 − 5·20); a sixth `mark_429` leaves the
health score at 0 — the score a reachable endpoint may have — so the call
does not strictly decrease it. -/
theorem mark_429_counterexample :
    let e5 := (((((RpcEndpoint.init "u1" "fast" "helius").mark_429 0).mark_429 0).mark_429
        0).mark_429 0).mark_429 0
    e5.health_score = 0 ∧ ¬ ((e5.mark_429 0).health_score < e5.health_score) := by
  constructor
  · norm_num [RpcEndpoint.init, RpcEndpoint.mark_429]
  · norm_num [RpcEndpoint.init, RpcEndpoint.mark_429]

/- ================================================================
   Position risk engine — src/backend/services/position_manager.py
   ================================================================ -/

/-- The fields of `PositionData` read or written by `update_price` and the
per-position body of `evaluate_positions`.  `tp_hits` is the list of
take-profit tier keys already fired, in firing order. -/
structure PositionData where
  entry_price_sol : ℚ
  current_price_sol : ℚ
  amount_sol : ℚ
  pnl_sol : ℚ
  pnl_percent : ℚ
  trailing_active : Bool
  trailing_high : ℚ
  tp_hits : List String
deriving Repr, DecidableEq

namespace PositionData

/-- `update_price(new_price)`: set the current price, recompute the PnL
percentage only when the entry price is strictly positive (otherwise the
field keeps its prior value), recompute the absolute PnL with the
denominator floored at `0.000001`, and raise the trailing high-water when
exceeded.  (`new_price` is already numeric here, so the
`float(new_price)` conversion guarded by `try/except` cannot fail.) -/
def update_price (p : PositionData) (new_price : ℚ) : PositionData :=
  let current := new_price
  let pnlPct := if p.entry_price_sol > 0
    then ((current - p.entry_price_sol) / p.entry_price_sol) * 100
    else p.pnl_percent
  let pnlSol := (current - p.entry_price_sol)
    * (p.amount_sol / max p.entry_price_sol (1 / 1000000))
  { p with current_price_sol := current,
           pnl_percent := pnlPct,
           pnl_sol := pnlSol,
           trailing_high := if current > p.trailing_high then current else p.trailing_high }

end PositionData

/-- One entry of the `TAKE_PROFIT` config dict whose value is itself a dict
(the `isinstance(tp_val, dict)` guard admits exactly these): iteration
order of the dict is the list order.  `gain` defaults to 100 and `percent`
to 25 in the code; here both are explicit. -/
structure TpTier where
  key : String
  gain : ℚ
  percent : ℚ
deriving Repr, DecidableEq

/-- The `RISK`/`HFT` configuration values read by `evaluate_positions`,
with their code defaults noted: `KILL_SWITCH.ENABLED` (True),
`KILL_SWITCH.MAX_TIME_SECONDS` (40), `KILL_SWITCH.DROP_THRESHOLD_PERCENT`
(−12), `STOP_LOSS.ULTRA` (−20), `STOP_LOSS.HIGH` (−15),
`TRAILING.START_PERCENT` (15), `TRAILING.DISTANCE_PERCENT` (10),
`HFT.MAX_POSITION_AGE_MS` (60000). -/
structure RiskConfig where
  kill_switch_enabled : Bool
  kill_switch_max_time_seconds : ℚ
  kill_switch_drop_threshold_percent : ℚ
  stop_loss_ultra : ℚ
  stop_loss_high : ℚ
  trailing_start_percent : ℚ
  trailing_distance_percent : ℚ
  hft_max_position_age_ms : ℚ
deriving Repr, DecidableEq

/-- The code defaults of `RiskConfig` (each `config.get(..., default)`). -/
def RiskConfig.defaults : RiskConfig :=
  { kill_switch_enabled := true, kill_switch_max_time_seconds := 40,
    kill_switch_drop_threshold_percent := -12, stop_loss_ultra := -20,
    stop_loss_high := -15, trailing_start_percent := 15,
    trailing_distance_percent := 10, hft_max_position_age_ms := 60000 }

/-- The take-profit loop of `evaluate_positions`: for each tier in config
order, if the PnL percentage has reached the tier's gain and the tier has
not fired before, record it in `tp_hits` and scale the committed amount by
`1 − percent/100`. -/
def tpStep (p : PositionData) (t : TpTier) : PositionData :=
  if p.pnl_percent ≥ t.gain ∧ t.key ∉ p.tp_hits then
    { p with tp_hits := p.tp_hits ++ [t.key],
             amount_sol := p.amount_sol * (1 - t.percent / 100) }
  else p

def applyTpTiers (tiers : List TpTier) (pos : PositionData) : PositionData :=
  tiers.foldl tpStep pos

/-- The per-position body of `evaluate_positions` (the loop applies this to
every open position; `close_position` then records the returned reason).
`age_s` is the position age in seconds computed from `entry_time`; the
`try/except` around the timestamp parse is modelled as a successful parse.
Returns the updated position and the close reason, `none` when no exit
rule fired. -/
def evaluate_position (cfg : RiskConfig) (tiers : List TpTier)
    (pos : PositionData) (age_s : ℚ) : PositionData × Option String :=
  if cfg.kill_switch_enabled
      ∧ age_s > cfg.kill_switch_max_time_seconds
      ∧ pos.pnl_percent < cfg.kill_switch_drop_threshold_percent then
    (pos, some "KILL_SWITCH")
  else if pos.pnl_percent ≤ cfg.stop_loss_ultra then
    (pos, some "STOP_LOSS_ULTRA")
  else if pos.pnl_percent ≤ cfg.stop_loss_high then
    (pos, some "STOP_LOSS_HIGH")
  else
    let p1 := applyTpTiers tiers pos
    let p2 := if p1.pnl_percent ≥ cfg.trailing_start_percent
      then { p1 with trailing_active := true } else p1
    if p2.trailing_active ∧ p2.trailing_high > 0
        ∧ ((p2.current_price_sol - p2.trailing_high) / p2.trailing_high) * 100
            ≤ -cfg.trailing_distance_percent then
      (p2, some "TRAILING_STOP")
    else if age_s * 1000 > cfg.hft_max_position_age_ms then
      (p2, some "MAX_AGE")
    else
      (p2, none)

/-- `applyTpTiers` unfolds one tier at a time. -/
lemma applyTpTiers_cons (t : TpTier) (ts : List TpTier) (pos : PositionData) :
    applyTpTiers (t :: ts) pos = applyTpTiers ts (tpStep pos t) := rfl

/-- A fired tier stays recorded through the take-profit loop. -/
lemma applyTpTiers_hits_mono (tiers : List TpTier) (pos : PositionData) (k : String)
    (hk : k ∈ pos.tp_hits) : k ∈ (applyTpTiers tiers pos).tp_hits := by
  induction tiers generalizing pos with
  | nil => simpa [applyTpTiers] using hk
  | cons t ts ih =>
    rw [applyTpTiers_cons]
    refine ih (tpStep pos t) ?_
    unfold tpStep
    by_cases hc : pos.pnl_percent ≥ t.gain ∧ t.key ∉ pos.tp_hits
    · rw [if_pos hc]
      simp only [List.mem_append]
      exact Or.inl hk
    · rw [if_neg hc]
      exact hk

/-- The take-profit loop never removes a recorded tier, only appends. -/
lemma applyTpTiers_skip_recorded (tiers : List TpTier) (pos : PositionData) (k : String)
    (hk : k ∈ pos.tp_hits) :
    applyTpTiers tiers pos
      = applyTpTiers (tiers.filter (fun t => decide (t.key ≠ k))) pos := by
  induction tiers generalizing pos with
  | nil => rfl
  | cons t ts ih =>
    by_cases hkey : t.key = k
    · have hstep : tpStep pos t = pos := by
        unfold tpStep
        rw [if_neg]
        rintro ⟨-, habs⟩
        exact habs (hkey ▸ hk)
      rw [applyTpTiers_cons, hstep]
      have hfilter : (t :: ts).filter (fun t => decide (t.key ≠ k))
          = ts.filter (fun t => decide (t.key ≠ k)) := by
        simp [List.filter_cons, hkey]
      rw [hfilter]
      exact ih pos hk
    · have hfilter : (t :: ts).filter (fun t => decide (t.key ≠ k))
          = t :: ts.filter (fun t => decide (t.key ≠ k)) := by
        simp [List.filter_cons, hkey]
      rw [hfilter, applyTpTiers_cons, applyTpTiers_cons]
      refine ih (tpStep pos t) ?_
      unfold tpStep
      by_cases hc : pos.pnl_percent ≥ t.gain ∧ t.key ∉ pos.tp_hits
      · rw [if_pos hc]
        simp only [List.mem_append]
        exact Or.inl hk
      · rw [if_neg hc]
        exact hk

/-- C3. Kill-switch precedence: a position that simultaneously satisfies the
kill-switch condition (age above the maximum and PnL below the drop
threshold, switch enabled) and the ultra stop-loss condition is closed with
reason `"KILL_SWITCH"`, never a stop-loss reason, and the remaining exit
rules (and the take-profit loop) are skipped that cycle: the position state
is returned untouched. -/
theorem kill_switch_precedence (cfg : RiskConfig) (tiers : List TpTier)
    (pos : PositionData) (age_s : ℚ)
    (hen : cfg.kill_switch_enabled = true)
    (hage : age_s > cfg.kill_switch_max_time_seconds)
    (hdrop : pos.pnl_percent < cfg.kill_switch_drop_threshold_percent)
    (_hultra : pos.pnl_percent ≤ cfg.stop_loss_ultra) :
    evaluate_position cfg tiers pos age_s = (pos, some "KILL_SWITCH") := by
  unfold evaluate_position
  rw [if_pos ⟨by rw [hen], hage, hdrop⟩]

/-- Witness for C3: default config, position 50 seconds old at −25% PnL
(kill switch: 50 > 40 and −25 < −12; ultra stop-loss: −25 ≤ −20). -/
theorem kill_switch_precedence_witness :
    evaluate_position RiskConfig.defaults
      [{ key := "TP1", gain := -50, percent := 25 }]
      { entry_price_sol := 1, current_price_sol := 3/4, amount_sol := 1,
        pnl_sol := -(1/4), pnl_percent := -25, trailing_active := false,
        trailing_high := 1, tp_hits := [] } 50
    = ({ entry_price_sol := 1, current_price_sol := 3/4, amount_sol := 1,
         pnl_sol := -(1/4), pnl_percent := -25, trailing_active := false,
         trailing_high := 1, tp_hits := [] }, some "KILL_SWITCH") :=
  kill_switch_precedence RiskConfig.defaults
    [{ key := "TP1", gain := -50, percent := 25 }]
    { entry_price_sol := 1, current_price_sol := 3/4, amount_sol := 1,
      pnl_sol := -(1/4), pnl_percent := -25, trailing_active := false,
      trailing_high := 1, tp_hits := [] } 50
    rfl (by norm_num [RiskConfig.defaults]) (by norm_num [RiskConfig.defaults])
    (by norm_num [RiskConfig.defaults])

/-- C7 (amended). Take-profit evaluation: in a cycle in which neither the
kill switch nor a stop-loss rule fires for a position, the take-profit loop
runs (its effect on the committed amount and the hit set is exactly
`applyTpTiers`, and it runs regardless of whether the later trailing-stop
or max-age rule then matches); a crossed, un-triggered tier cuts the
committed amount by its percentage and is recorded; and the take-profit
loop itself never closes the position — the only close reasons produced
after it are `"TRAILING_STOP"` and `"MAX_AGE"`.  (When the kill switch or a
stop-loss fires first, the take-profit loop is skipped that cycle: see the
counterexample.) -/
theorem take_profit_guarded_evaluation (cfg : RiskConfig) (tiers : List TpTier)
    (pos : PositionData) (age_s : ℚ)
    (hks : ¬(cfg.kill_switch_enabled = true
        ∧ age_s > cfg.kill_switch_max_time_seconds
        ∧ pos.pnl_percent < cfg.kill_switch_drop_threshold_percent))
    (hultra : cfg.stop_loss_ultra < pos.pnl_percent)
    (hhigh : cfg.stop_loss_high < pos.pnl_percent) :
    ((evaluate_position cfg tiers pos age_s).1.amount_sol
        = (applyTpTiers tiers pos).amount_sol
      ∧ (evaluate_position cfg tiers pos age_s).1.tp_hits
        = (applyTpTiers tiers pos).tp_hits)
    ∧ ((evaluate_position cfg tiers pos age_s).2 = none
        ∨ (evaluate_position cfg tiers pos age_s).2 = some "TRAILING_STOP"
        ∨ (evaluate_position cfg tiers pos age_s).2 = some "MAX_AGE")
    ∧ (∀ t : TpTier, pos.pnl_percent ≥ t.gain → t.key ∉ pos.tp_hits →
        (applyTpTiers [t] pos).amount_sol = pos.amount_sol * (1 - t.percent / 100)
        ∧ (applyTpTiers [t] pos).tp_hits = pos.tp_hits ++ [t.key]) := by
  have h1 : ¬ (pos.pnl_percent ≤ cfg.stop_loss_ultra) := not_le.mpr hultra
  have h2 : ¬ (pos.pnl_percent ≤ cfg.stop_loss_high) := not_le.mpr hhigh
  have heval : evaluate_position cfg tiers pos age_s =
      (let p1 := applyTpTiers tiers pos
       let p2 := if p1.pnl_percent ≥ cfg.trailing_start_percent
         then { p1 with trailing_active := true } else p1
       if p2.trailing_active ∧ p2.trailing_high > 0
           ∧ ((p2.current_price_sol - p2.trailing_high) / p2.trailing_high) * 100
               ≤ -cfg.trailing_distance_percent then
         (p2, some "TRAILING_STOP")
       else if age_s * 1000 > cfg.hft_max_position_age_ms then
         (p2, some "MAX_AGE")
       else
         (p2, none)) := by
    unfold evaluate_position
    rw [if_neg hks, if_neg h1, if_neg h2]
  refine ⟨?_, ?_, ?_⟩
  · rw [heval]
    dsimp only
    split_ifs <;> simp
  · rw [heval]
    dsimp only
    split_ifs <;> simp
  · intro t ht hnot
    constructor <;> simp [applyTpTiers, tpStep, ht, hnot]

/-- Witness for C7: default config, position at +60% PnL, 10 seconds old,
one un-hit tier at gain 50 / percent 25 (no exit rule fires: kill switch
needs PnL < −12, stop-losses need ≤ −20/−15). -/
theorem take_profit_guarded_evaluation_witness :
    let pos : PositionData :=
      { entry_price_sol := 1, current_price_sol := 8/5, amount_sol := 1,
        pnl_sol := 3/5, pnl_percent := 60, trailing_active := false,
        trailing_high := 8/5, tp_hits := [] }
    let tiers : List TpTier := [{ key := "TP1", gain := 50, percent := 25 }]
    ((evaluate_position RiskConfig.defaults tiers pos 10).1.amount_sol
        = (applyTpTiers tiers pos).amount_sol
      ∧ (evaluate_position RiskConfig.defaults tiers pos 10).1.tp_hits
        = (applyTpTiers tiers pos).tp_hits)
    ∧ ((evaluate_position RiskConfig.defaults tiers pos 10).2 = none
        ∨ (evaluate_position RiskConfig.defaults tiers pos 10).2 = some "TRAILING_STOP"
        ∨ (evaluate_position RiskConfig.defaults tiers pos 10).2 = some "MAX_AGE")
    ∧ (∀ t : TpTier, pos.pnl_percent ≥ t.gain → t.key ∉ pos.tp_hits →
        (applyTpTiers [t] pos).amount_sol = pos.amount_sol * (1 - t.percent / 100)
        ∧ (applyTpTiers [t] pos).tp_hits = pos.tp_hits ++ [t.key]) :=
  take_profit_guarded_evaluation RiskConfig.defaults
    [{ key := "TP1", gain := 50, percent := 25 }]
    { entry_price_sol := 1, current_price_sol := 8/5, amount_sol := 1,
      pnl_sol := 3/5, pnl_percent := 60, trailing_active := false,
      trailing_high := 8/5, tp_hits := [] } 10
    (by norm_num [RiskConfig.defaults])
    (by norm_num [RiskConfig.defaults])
    (by norm_num [RiskConfig.defaults])

/-- Counterexample for C7 as stated: a position at −30% PnL with a
configured tier at gain −50 that is crossed and un-triggered.  The ultra
stop-loss fires first and the take-profit loop is skipped that cycle: the
committed amount and the hit set are unchanged, refuting "the take-profit
tiers are evaluated regardless of which exit rule matches". -/
theorem take_profit_skipped_counterexample :
    let pos : PositionData :=
      { entry_price_sol := 1, current_price_sol := 7/10, amount_sol := 1,
        pnl_sol := -(3/10), pnl_percent := -30, trailing_active := false,
        trailing_high := 1, tp_hits := [] }
    let tiers : List TpTier := [{ key := "TP1", gain := -50, percent := 25 }]
    pos.pnl_percent ≥ (-50 : ℚ)
    ∧ "TP1" ∉ pos.tp_hits
    ∧ (evaluate_position RiskConfig.defaults tiers pos 10).2 = some "STOP_LOSS_ULTRA"
    ∧ (evaluate_position RiskConfig.defaults tiers pos 10).1.amount_sol = pos.amount_sol
    ∧ (evaluate_position RiskConfig.defaults tiers pos 10).1.tp_hits = pos.tp_hits := by
  refine ⟨by norm_num, by simp, ?_, ?_, ?_⟩ <;>
    norm_num [evaluate_position, RiskConfig.defaults]

/-- C8. Take-profit at-most-once: once a tier key is recorded in `tp_hits`,
the take-profit loop behaves exactly as if every tier with that key were
absent from the configuration — in particular it never reduces the
committed amount for that tier again, whatever the PnL — and the key is
still recorded after the full evaluation body, so the same holds in every
later cycle. -/
theorem take_profit_at_most_once (cfg : RiskConfig) (tiers : List TpTier)
    (pos : PositionData) (age_s : ℚ) (k : String) (hk : k ∈ pos.tp_hits) :
    applyTpTiers tiers pos
      = applyTpTiers (tiers.filter (fun t => decide (t.key ≠ k))) pos
    ∧ k ∈ (evaluate_position cfg tiers pos age_s).1.tp_hits := by
  refine ⟨applyTpTiers_skip_recorded tiers pos k hk, ?_⟩
  unfold evaluate_position
  split
  · exact hk
  · split
    · exact hk
    · split
      · exact hk
      · have hmem : k ∈ (applyTpTiers tiers pos).tp_hits :=
          applyTpTiers_hits_mono tiers pos k hk
        by_cases hb : (applyTpTiers tiers pos).pnl_percent ≥ cfg.trailing_start_percent <;>
          simp only [hb, if_true, if_false] <;>
          split <;>
          first
            | simpa using hmem
            | (split <;> simpa using hmem)

/-- Witness for C8: a position whose `tp_hits` already contains "TP1",
with PnL still above the tier's gain threshold. -/
theorem take_profit_at_most_once_witness :
    let pos : PositionData :=
      { entry_price_sol := 1, current_price_sol := 8/5, amount_sol := 3/4,
        pnl_sol := 9/20, pnl_percent := 60, trailing_active := false,
        trailing_high := 8/5, tp_hits := ["TP1"] }
    let tiers : List TpTier := [{ key := "TP1", gain := 50, percent := 25 }]
    applyTpTiers tiers pos
      = applyTpTiers (tiers.filter (fun t => decide (t.key ≠ "TP1"))) pos
    ∧ "TP1" ∈ (evaluate_position RiskConfig.defaults tiers pos 10).1.tp_hits :=
  take_profit_at_most_once RiskConfig.defaults
    [{ key := "TP1", gain := 50, percent := 25 }]
    { entry_price_sol := 1, current_price_sol := 8/5, amount_sol := 3/4,
      pnl_sol := 9/20, pnl_percent := 60, trailing_active := false,
      trailing_high := 8/5, tp_hits := ["TP1"] } 10 "TP1" (by simp)

/-- C10. Price-update totality: `update_price` is a total function (the
`float(new_price)` conversion guarded by `try/except` cannot fail on a
numeric input); with a non-positive entry price the PnL-percent division is
skipped and the field keeps its prior value, with a positive entry price it
is recomputed; the PnL-in-SOL denominator `max(entry, 0.000001)` is always
strictly positive (so defined even at entry price 0); and the current price
and the trailing high-water are updated in both cases. -/
theorem update_price_total (pos : PositionData) (new_price : ℚ) :
    (pos.update_price new_price).current_price_sol = new_price
    ∧ (pos.entry_price_sol ≤ 0 →
        (pos.update_price new_price).pnl_percent = pos.pnl_percent)
    ∧ (0 < pos.entry_price_sol →
        (pos.update_price new_price).pnl_percent
          = ((new_price - pos.entry_price_sol) / pos.entry_price_sol) * 100)
    ∧ (0 : ℚ) < max pos.entry_price_sol (1 / 1000000)
    ∧ (pos.update_price new_price).pnl_sol
        = (new_price - pos.entry_price_sol)
          * (pos.amount_sol / max pos.entry_price_sol (1 / 1000000))
    ∧ (pos.update_price new_price).trailing_high
        = max pos.trailing_high new_price := by
  refine ⟨rfl, ?_, ?_, ?_, rfl, ?_⟩
  · intro h
    unfold PositionData.update_price
    dsimp only
    rw [if_neg (not_lt.mpr h)]
  · intro h
    unfold PositionData.update_price
    dsimp only
    rw [if_pos h]
  · exact lt_max_of_lt_right (by norm_num)
  · unfold PositionData.update_price
    dsimp only
    rcases le_or_lt new_price pos.trailing_high with h | h
    · rw [if_neg (not_lt.mpr h), max_eq_left h]
    · rw [if_pos h, max_eq_right (le_of_lt h)]

/-- Witness for C10: entry price 0 (non-positive), price update to 2:
PnL percent untouched, denominator still positive, current price and
trailing high updated. -/
theorem update_price_total_witness :
    let pos : PositionData :=
      { entry_price_sol := 0, current_price_sol := 1, amount_sol := 1,
        pnl_sol := 0, pnl_percent := 5, trailing_active := false,
        trailing_high := 1, tp_hits := [] }
    (pos.update_price 2).current_price_sol = 2
    ∧ (pos.entry_price_sol ≤ 0 → (pos.update_price 2).pnl_percent = pos.pnl_percent)
    ∧ (0 < pos.entry_price_sol →
        (pos.update_price 2).pnl_percent
          = ((2 - pos.entry_price_sol) / pos.entry_price_sol) * 100)
    ∧ (0 : ℚ) < max pos.entry_price_sol (1 / 1000000)
    ∧ (pos.update_price 2).pnl_sol
        = (2 - pos.entry_price_sol)
          * (pos.amount_sol / max pos.entry_price_sol (1 / 1000000))
    ∧ (pos.update_price 2).trailing_high = max pos.trailing_high 2 :=
  update_price_total
    { entry_price_sol := 0, current_price_sol := 1, amount_sol := 1,
      pnl_sol := 0, pnl_percent := 5, trailing_active := false,
      trailing_high := 1, tp_hits := [] } 2

/- ================================================================
   Clone & inject builder — src/backend/services/solana_trader.py
   ================================================================ -/

/-- `solders.instruction.AccountMeta`: a pubkey plus signer/writable
flags; pubkeys are modelled as their base58 strings. -/
structure AccountMeta where
  pubkey : String
  is_signer : Bool
  is_writable : Bool
deriving Repr, DecidableEq

/-- `TOKEN_PROGRAM_STR`. -/
def TOKEN_PROGRAM_STR : String := "TokenkegQfeZyiNwAJbNbGKPFXCWuBvf9Ss623VQ5DA"

/-- `TOKEN_2022_PROGRAM_STR`. -/
def TOKEN_2022_PROGRAM_STR : String := "TokenzQdBNbLqP5VEhdkAS6EPFLC1PHnBqCXEpPxuEb"

/-- `get_associated_token_address(wallet, mint, token_program)`: an
associated-token-account PDA from the seeds `[wallet, token_program,
mint]`.  The `find_program_address` hashing cannot be computed here, so the
derivation is modelled as an injective tag of the seed tuple in seed
order; the claims only need that the result is a function of
(wallet, token-program, mint). -/
def get_associated_token_address (wallet mint token_program : String) : String :=
  "ATA(" ++ wallet ++ "," ++ token_program ++ "," ++ mint ++ ")"

/-- `tp = TOKEN_2022_PROGRAM if token_program_str == TOKEN_2022_PROGRAM_STR
else TOKEN_PROGRAM`: the detected token-program variant. -/
def detect_token_program (token_program_str : String) : String :=
  if token_program_str == TOKEN_2022_PROGRAM_STR then TOKEN_2022_PROGRAM_STR
  else TOKEN_PROGRAM_STR

/-- The body of the account-cloning loop of
`clone_and_inject_buy_transaction`, for position `i`: the signer at
index 6 becomes the buyer, index 5 becomes the buyer's associated token
account, and every other entry is rebuilt verbatim
(`AccountMeta(pubkey, is_signer, is_writable)`). -/
def cloneStep (buyer buyer_ata : String) (i : Nat) (am : AccountMeta) : AccountMeta :=
  if i = 6 ∧ am.is_signer then { am with pubkey := buyer }
  else if i = 5 then { am with pubkey := buyer_ata }
  else am

/-- The `for i, am in enumerate(account_metas_clone)` loop building
`cloned_accounts`. -/
def clone_account_metas (template : List AccountMeta) (buyer buyer_ata : String) :
    List AccountMeta :=
  template.enum.map (fun p => cloneStep buyer buyer_ata p.1 p.2)

/-- Position `i` of the cloned list is `cloneStep` of position `i` of the
template. -/
lemma clone_account_metas_getElem (template : List AccountMeta)
    (buyer buyer_ata : String) (i : Nat) :
    (clone_account_metas template buyer buyer_ata)[i]?
      = (template[i]?).map (cloneStep buyer buyer_ata i) := by
  unfold clone_account_metas
  rw [List.getElem?_map, List.getElem?_enum, Option.map_map]
  rfl

/-- C4. Clone & inject frame: the cloned account list has the template's
length; at every position other than 5 and 6 it equals the template entry
(pubkey and both flags); position 5 carries the wallet's derived
associated token account for the mint under the detected token-program
variant and position 6 the executing wallet's key, both with the
template's signer/writable flags unchanged.  The hypothesis states that
slot 6 of the template — the original creator/signer slot — is flagged as
a signer, as the claim presumes (the code only swaps index 6 when
`is_signer` is set). -/
theorem clone_and_inject_frame (template : List AccountMeta)
    (buyer mint token_program_str : String)
    (hsig : ∀ am : AccountMeta, template[6]? = some am → am.is_signer = true) :
    let buyer_ata := get_associated_token_address buyer mint
      (detect_token_program token_program_str)
    let cloned := clone_account_metas template buyer buyer_ata
    cloned.length = template.length
    ∧ (∀ i : Nat, i ≠ 5 → i ≠ 6 → cloned[i]? = template[i]?)
    ∧ cloned[5]? = (template[5]?).map (fun am => { am with pubkey := buyer_ata })
    ∧ cloned[6]? = (template[6]?).map (fun am => { am with pubkey := buyer }) := by
  intro buyer_ata cloned
  have hc : cloned = clone_account_metas template buyer buyer_ata := rfl
  refine ⟨?_, ?_, ?_, ?_⟩
  · rw [hc]
    unfold clone_account_metas
    rw [List.length_map, List.enum_length]
  · intro i hi5 hi6
    rw [hc, clone_account_metas_getElem]
    cases template[i]? with
    | none => rfl
    | some am =>
      simp only [Option.map_some']
      unfold cloneStep
      rw [if_neg (by rintro ⟨h, -⟩; exact hi6 h), if_neg hi5]
  · rw [hc, clone_account_metas_getElem]
    cases template[5]? with
    | none => rfl
    | some am =>
      simp only [Option.map_some']
      unfold cloneStep
      rw [if_neg (by rintro ⟨h, -⟩; omega), if_pos rfl]
  · rw [hc, clone_account_metas_getElem]
    cases h6 : template[6]? with
    | none => rfl
    | some am =>
      simp only [Option.map_some']
      unfold cloneStep
      rw [if_pos ⟨rfl, hsig am h6⟩]

/-- Witness for C4: a concrete 8-entry clone template (the pump.fun buy
layout) with a signer at index 6; the executing wallet is "W" and the
detected program the Token-2022 variant. -/
theorem clone_and_inject_frame_witness :
    let template : List AccountMeta :=
      [{ pubkey := "global", is_signer := false, is_writable := false },
       { pubkey := "fee_recipient", is_signer := false, is_writable := true },
       { pubkey := "mint0", is_signer := false, is_writable := false },
       { pubkey := "bonding_curve", is_signer := false, is_writable := true },
       { pubkey := "assoc_bonding_curve", is_signer := false, is_writable := true },
       { pubkey := "creator_ata", is_signer := false, is_writable := true },
       { pubkey := "creator", is_signer := true, is_writable := true },
       { pubkey := "system_program", is_signer := false, is_writable := false }]
    let buyer_ata := get_associated_token_address "W" "mint0"
      (detect_token_program TOKEN_2022_PROGRAM_STR)
    let cloned := clone_account_metas template "W" buyer_ata
    cloned.length = template.length
    ∧ (∀ i : Nat, i ≠ 5 → i ≠ 6 → cloned[i]? = template[i]?)
    ∧ cloned[5]? = (template[5]?).map (fun am => { am with pubkey := buyer_ata })
    ∧ cloned[6]? = (template[6]?).map (fun am => { am with pubkey := "W" }) :=
  clone_and_inject_frame
    [{ pubkey := "global", is_signer := false, is_writable := false },
     { pubkey := "fee_recipient", is_signer := false, is_writable := true },
     { pubkey := "mint0", is_signer := false, is_writable := false },
     { pubkey := "bonding_curve", is_signer := false, is_writable := true },
     { pubkey := "assoc_bonding_curve", is_signer := false, is_writable := true },
     { pubkey := "creator_ata", is_signer := false, is_writable := true },
     { pubkey := "creator", is_signer := true, is_writable := true },
     { pubkey := "system_program", is_signer := false, is_writable := false }]
    "W" "mint0" TOKEN_2022_PROGRAM_STR
    (by
      intro am h
      have h' : some ({ pubkey := "creator", is_signer := true, is_writable := true } : AccountMeta) = some am := h
      cases h'
      rfl)
